import Mathlib

/-
Verification of the no-restricted-properties lint rule
(src/lib/rules/no-restricted-properties.js, the revision whose create
function spans lines 74-215).

The rule compiles its options into three lookup maps and, for every
visited access site, reports restricted property accesses through a
three-tier decision: object-scoped restrictions, then globally
restricted property names, then globally restricted object names.

JS Map objects keyed by the option fields are embedded as association
lists over Option String keys: a key of the form some s models a string
key, none models the undefined key (Map.set called with an undefined
field).  JS insertion semantics (overwrite in place, append otherwise)
are mirrored by mapSet, and Map.get by mapGet.
-/

namespace NoRestrictedProperties

/-- One configured restriction entry: the object, property and message
fields of an options element, each possibly absent (undefined). -/
structure Entry where
  object : Option String
  property : Option String
  message : Option String
  deriving DecidableEq

/-- A JS Map whose keys are strings or undefined, as an association list
in insertion order. -/
abbrev JSMap (α : Type) := List (Option String × α)

/-- Map.set: overwrite the binding in place when the key is present,
otherwise append the new binding. -/
def mapSet {α : Type} : JSMap α → Option String → α → JSMap α
  | [], k, v => [(k, v)]
  | (k₀, v₀) :: rest, k, v =>
      if k₀ = k then (k, v) :: rest else (k₀, v₀) :: mapSet rest k v

/-- Map.get: the value bound to the key, or none (undefined) when absent. -/
def mapGet {α : Type} : JSMap α → Option String → Option α
  | [], _ => none
  | (k₀, v₀) :: rest, k => if k₀ = k then some v₀ else mapGet rest k

/-- The three lookup structures built by create: restrictedProperties
(object-scoped), globallyRestrictedObjects, globallyRestrictedProperties.
The stored value is the message field of the entry that set the key. -/
structure Model where
  restrictedProperties : JSMap (JSMap (Option String))
  globallyRestrictedObjects : JSMap (Option String)
  globallyRestrictedProperties : JSMap (Option String)
  deriving DecidableEq

/-- The state of the three maps before any option is processed. -/
def emptyModel : Model := ⟨[], [], []⟩

/-- One iteration of the restrictedCalls.forEach loop: dispatch the entry
into exactly one of the three maps depending on which fields are
undefined.  In the scoped branch the source mutates the inner map
obtained from restrictedProperties (inserting a fresh empty map first
when absent), which is the same as rebinding the outer key to the
updated inner map. -/
def buildStep (m : Model) (option : Entry) : Model :=
  match option.object, option.property with
  | none, _ =>
      { m with globallyRestrictedProperties :=
          mapSet m.globallyRestrictedProperties option.property option.message }
  | some objectName, none =>
      { m with globallyRestrictedObjects :=
          mapSet m.globallyRestrictedObjects (some objectName) option.message }
  | some objectName, some propertyName =>
      { m with restrictedProperties :=
          (mapSet m.restrictedProperties (some objectName)
            (mapSet ((mapGet m.restrictedProperties (some objectName)).getD [])
              (some propertyName) option.message)) }

/-- The whole forEach loop over the configured entries. -/
def buildModel (restrictedCalls : List Entry) : Model :=
  restrictedCalls.foldl buildStep emptyModel

/-- The message suffix put into the report data: a space followed by the
configured message when that is truthy, the empty string when the
message is undefined or empty (both falsy in JS). -/
def fmtMessage : Option String → String
  | none => ""
  | some s => if s = "" then "" else " " ++ s

/-- The arr accumulated inside the helper named fun in the source: for
each property name in order, the (name, message) pair when the name is a
key of the map.  A none element models the null produced by an
unresolvable static property name; null is never a key of these maps
(their keys are strings or undefined), so none elements never match. -/
def matchingProps (mapName : JSMap (Option String)) (propertyNames : List (Option String)) :
    List (String × Option String) :=
  propertyNames.filterMap fun x =>
    match x with
    | none => none
    | some s => (mapGet mapName (some s)).map fun v => (s, v)

/-- The helper named fun in the source: undefined when no property name
matched, otherwise the nonempty list of matches. -/
def fun_ (mapName : JSMap (Option String)) (propertyNames : List (Option String)) :
    Option (List (String × Option String)) :=
  if matchingProps mapName propertyNames = [] then none
  else some (matchingProps mapName propertyNames)

/-- A report passed to context.report: the messageId together with the
data fields.  Option String fields model data values that may be nullish
(the objectName argument, and the propertyName taken from a possibly
unresolvable or empty sequence). -/
inductive Diagnostic where
  | restrictedObjectProperty (objectName : Option String) (propertyName : Option String)
      (message : String)
  | restrictedProperty (propertyName : Option String) (message : String)
  deriving DecidableEq

/-- matchedObjectProperty in checkPropertyAccess: the scoped-tier
matches, undefined when the object has no scoped map or no property name
matched it. -/
def scopedMatches (model : Model) (objectName : Option String)
    (propertyNames : List (Option String)) : Option (List (String × Option String)) :=
  match mapGet model.restrictedProperties objectName with
  | some matchedObject => fun_ matchedObject propertyNames
  | none => none

/-- checkPropertyAccess: the three-tier if / else-if / else-if chain.
The guard (propertyName === null) at the top of the source function is
unreachable in this revision because both call sites pass an array,
never null, so it is not modelled.  The last tier reports
propertyNames[0], which is undefined when the sequence is empty; both
null and undefined data values are embedded as none. -/
def checkPropertyAccess (model : Model) (objectName : Option String)
    (propertyNames : List (Option String)) : List Diagnostic :=
  match scopedMatches model objectName propertyNames with
  | some props =>
      props.map fun p =>
        Diagnostic.restrictedObjectProperty objectName (some p.1) (fmtMessage p.2)
  | none =>
    match fun_ model.globallyRestrictedProperties propertyNames with
    | some props =>
        props.map fun p => Diagnostic.restrictedProperty (some p.1) (fmtMessage p.2)
    | none =>
      match mapGet model.globallyRestrictedObjects objectName with
      | some message =>
          [Diagnostic.restrictedObjectProperty objectName
            (propertyNames.head?.getD none) (fmtMessage message)]
      | none => []

/-- The property position of a member expression or pattern property: a
plain identifier key, a computed key with a statically known string
value, or a computed key with a dynamic (not statically known) value. -/
inductive PropKey where
  | ident (name : String)
  | strLit (value : String)
  | dynamic
  deriving DecidableEq

/-- Modelled from the spec: astUtils.getStaticPropertyName
(src/lib/rules/utils/ast-utils.js, not under src/) resolves the
statically known property name of an access, and yields null for a
computed key whose value is not statically known. -/
def getStaticPropertyName : PropKey → Option String
  | PropKey.ident n => some n
  | PropKey.strLit v => some v
  | PropKey.dynamic => none

/-- The object position of a member expression: a bare identifier, or
any other expression (whose name field is undefined). -/
inductive ObjExpr where
  | ident (name : String)
  | nonIdent
  deriving DecidableEq

/-- node.object && node.object.name: the identifier name of the object
expression when it is a bare identifier, undefined otherwise. -/
def objectNameOf : ObjExpr → Option String
  | ObjExpr.ident n => some n
  | ObjExpr.nonIdent => none

/-- One element of an object pattern property list: a keyed pattern
property (shorthand, renamed or computed), or a rest element. -/
inductive PatternProp where
  | keyed (key : PropKey)
  | restElement
  deriving DecidableEq

/-- Modelled from the spec: astUtils.getAllProperties
(src/lib/rules/utils/ast-utils.js, not under src/) returns the ordered
sequence of property names exposed by an object pattern: for each keyed
pattern property its static key name (the key, not a renamed binding),
or the unknown marker for a dynamic computed key; rest elements
contribute no property name. -/
def getAllProperties (properties : List PatternProp) : List (Option String) :=
  properties.filterMap fun p =>
    match p with
    | PatternProp.keyed k => some (getStaticPropertyName k)
    | PatternProp.restElement => none

/-- A MemberExpression node, reduced to the fields the rule reads. -/
structure MemberExpression where
  object : ObjExpr
  property : PropKey
  deriving DecidableEq

/-- The MemberExpression visitor: checkPropertyAccess on the object
identifier name and the one-element property-name array. -/
def visitMemberExpression (model : Model) (node : MemberExpression) : List Diagnostic :=
  checkPropertyAccess model (objectNameOf node.object)
    [getStaticPropertyName node.property]

/-- The assignment target or declaration id: an object pattern with its
property list, or any other target. -/
inductive BindingTarget where
  | objectPattern (properties : List PatternProp)
  | otherTarget
  deriving DecidableEq

/-- A VariableDeclarator node, reduced to the fields the rule reads; the
init field may be absent. -/
structure VariableDeclarator where
  id : BindingTarget
  init : Option ObjExpr
  deriving DecidableEq

/-- The VariableDeclarator visitor: when the initializer is a bare
identifier and the declared id is an object pattern, check the accessed
property names of the pattern against that identifier. -/
def visitVariableDeclarator (model : Model) (node : VariableDeclarator) : List Diagnostic :=
  match node.init with
  | some (ObjExpr.ident objectName) =>
      match node.id with
      | BindingTarget.objectPattern properties =>
          checkPropertyAccess model (some objectName) (getAllProperties properties)
      | BindingTarget.otherTarget => []
  | _ => []

/-- An AssignmentExpression or AssignmentPattern node, reduced to the
fields the rule reads. -/
structure Assignment where
  left : BindingTarget
  right : ObjExpr
  deriving DecidableEq

/-- checkDestructuringAssignment: when the right-hand side is a bare
identifier and the left-hand side is an object pattern, check the
accessed property names of the pattern against that identifier. -/
def checkDestructuringAssignment (model : Model) (node : Assignment) : List Diagnostic :=
  match node.right with
  | ObjExpr.ident objectName =>
      match node.left with
      | BindingTarget.objectPattern properties =>
          checkPropertyAccess model (some objectName) (getAllProperties properties)
      | BindingTarget.otherTarget => []
  | ObjExpr.nonIdent => []

/-- A parameter of an arrow function, as far as the rule inspects it. -/
inductive Param where
  | objectPatternParam (properties : List PatternProp)
  | assignmentPatternParam (left : BindingTarget)
  | otherParam
  deriving DecidableEq

/-- An ArrowFunctionExpression node, reduced to its parameter list. -/
structure ArrowFunctionExpression where
  params : List Param
  deriving DecidableEq

/-- The ArrowFunctionExpression visitor walks the params and computes
getAllProperties for object patterns, but discards every result and
never calls context.report, so it emits no diagnostics. -/
def visitArrowFunctionExpression (_node : ArrowFunctionExpression) : List Diagnostic := []

/-- The visitor record returned by create; a none field models a handler
key absent from the returned object. -/
structure Visitors where
  onMemberExpression : Option (MemberExpression → List Diagnostic)
  onVariableDeclarator : Option (VariableDeclarator → List Diagnostic)
  onAssignmentExpression : Option (Assignment → List Diagnostic)
  onAssignmentPattern : Option (Assignment → List Diagnostic)
  onArrowFunctionExpression : Option (ArrowFunctionExpression → List Diagnostic)

/-- create: with no configured entries return the empty handler object,
otherwise build the model and register the five visitors. -/
def create (options : List Entry) : Visitors :=
  if options.length = 0 then
    { onMemberExpression := none
      onVariableDeclarator := none
      onAssignmentExpression := none
      onAssignmentPattern := none
      onArrowFunctionExpression := none }
  else
    { onMemberExpression := some (visitMemberExpression (buildModel options))
      onVariableDeclarator := some (visitVariableDeclarator (buildModel options))
      onAssignmentExpression := some (checkDestructuringAssignment (buildModel options))
      onAssignmentPattern := some (checkDestructuringAssignment (buildModel options))
      onArrowFunctionExpression := some visitArrowFunctionExpression }

/-- A node of one of the kinds the rule can register a visitor for. -/
inductive Node where
  | memberExpression (n : MemberExpression)
  | variableDeclarator (n : VariableDeclarator)
  | assignmentExpression (n : Assignment)
  | assignmentPattern (n : Assignment)
  | arrowFunctionExpression (n : ArrowFunctionExpression)
  deriving DecidableEq

/-- Host traversal dispatch of one node: run the registered handler for
the node kind, and emit nothing when no handler is registered. -/
def runNode (v : Visitors) : Node → List Diagnostic
  | Node.memberExpression n => (v.onMemberExpression.map fun f => f n).getD []
  | Node.variableDeclarator n => (v.onVariableDeclarator.map fun f => f n).getD []
  | Node.assignmentExpression n => (v.onAssignmentExpression.map fun f => f n).getD []
  | Node.assignmentPattern n => (v.onAssignmentPattern.map fun f => f n).getD []
  | Node.arrowFunctionExpression n => (v.onArrowFunctionExpression.map fun f => f n).getD []

/-- Host traversal of a whole program: the diagnostics of every visited
node in traversal order. -/
def runProgram (v : Visitors) (program : List Node) : List Diagnostic :=
  (program.map (runNode v)).flatten

theorem mapGet_mapSet_self {α : Type} (m : JSMap α) (k : Option String) (v : α) :
    mapGet (mapSet m k v) k = some v := by
  induction m with
  | nil => simp [mapSet, mapGet]
  | cons a rest ih =>
      obtain ⟨k₀, v₀⟩ := a
      by_cases h : k₀ = k
      · simp [mapSet, mapGet, h]
      · simp [mapSet, mapGet, h, ih]

theorem mapGet_mapSet_ne {α : Type} (m : JSMap α) {k q : Option String} (v : α)
    (h : q ≠ k) : mapGet (mapSet m k v) q = mapGet m q := by
  have hkq : k ≠ q := Ne.symm h
  induction m with
  | nil => simp [mapSet, mapGet, hkq]
  | cons a rest ih =>
      obtain ⟨k₀, v₀⟩ := a
      by_cases h₀ : k₀ = k
      · subst h₀
        simp [mapSet, mapGet, hkq]
      · by_cases h₁ : k₀ = q
        · subst h₁
          simp [mapSet, mapGet, h₀]
        · simp [mapSet, mapGet, h₀, h₁, ih]

theorem buildStep_mapGet_none (m : Model) (e : Entry)
    (h₁ : mapGet m.restrictedProperties none = none)
    (h₂ : mapGet m.globallyRestrictedObjects none = none) :
    mapGet (buildStep m e).restrictedProperties none = none ∧
    mapGet (buildStep m e).globallyRestrictedObjects none = none := by
  cases ho : e.object with
  | none => simp [buildStep, ho, h₁, h₂]
  | some o =>
      cases hp : e.property with
      | none =>
          refine ⟨by simp [buildStep, ho, hp, h₁], ?_⟩
          simp only [buildStep, ho, hp]
          rw [mapGet_mapSet_ne _ _ (by simp)]
          exact h₂
      | some p =>
          refine ⟨?_, by simp [buildStep, ho, hp, h₂]⟩
          simp only [buildStep, ho, hp]
          rw [mapGet_mapSet_ne _ _ (by simp)]
          exact h₁

theorem foldl_buildStep_mapGet_none (es : List Entry) :
    ∀ m : Model, mapGet m.restrictedProperties none = none →
      mapGet m.globallyRestrictedObjects none = none →
      mapGet (es.foldl buildStep m).restrictedProperties none = none ∧
        mapGet (es.foldl buildStep m).globallyRestrictedObjects none = none := by
  induction es with
  | nil => exact fun m h₁ h₂ => ⟨h₁, h₂⟩
  | cons e rest ih =>
      intro m h₁ h₂
      have h := buildStep_mapGet_none m e h₁ h₂
      exact ih (buildStep m e) h.1 h.2

/-- The maps keyed by object names never acquire the undefined key: every
entry inserted into them carries a present object name. -/
theorem buildModel_mapGet_none (options : List Entry) :
    mapGet (buildModel options).restrictedProperties none = none ∧
    mapGet (buildModel options).globallyRestrictedObjects none = none :=
  foldl_buildStep_mapGet_none options emptyModel rfl rfl

theorem scopedMatches_eq_none (model : Model) (objectName : Option String)
    (names : List (Option String))
    (h : ∀ inner, mapGet model.restrictedProperties objectName = some inner →
      matchingProps inner names = []) :
    scopedMatches model objectName names = none := by
  cases hi : mapGet model.restrictedProperties objectName with
  | none => simp [scopedMatches, hi]
  | some inner => simp [scopedMatches, fun_, hi, h inner hi]

theorem checkPropertyAccess_scoped_of_mapGet (model : Model) (o p : String)
    (msg : Option String) (inner : JSMap (Option String))
    (hi : mapGet model.restrictedProperties (some o) = some inner)
    (hp : mapGet inner (some p) = some msg) :
    checkPropertyAccess model (some o) [some p] =
      [Diagnostic.restrictedObjectProperty (some o) (some p) (fmtMessage msg)] := by
  have hm : matchingProps inner [some p] = [(p, msg)] := by
    simp [matchingProps, hp]
  simp [checkPropertyAccess, scopedMatches, fun_, hi, hm]

theorem checkPropertyAccess_globalProp (model : Model) (objectName : Option String)
    (names : List (Option String))
    (hsc : scopedMatches model objectName names = none)
    (hne : matchingProps model.globallyRestrictedProperties names ≠ []) :
    checkPropertyAccess model objectName names =
      (matchingProps model.globallyRestrictedProperties names).map
        (fun q => Diagnostic.restrictedProperty (some q.1) (fmtMessage q.2)) := by
  simp only [checkPropertyAccess, hsc, fun_, if_neg hne]

theorem checkPropertyAccess_globalObject (model : Model) (objectName : Option String)
    (names : List (Option String)) (msg : Option String)
    (hsc : scopedMatches model objectName names = none)
    (hgp : matchingProps model.globallyRestrictedProperties names = [])
    (hgo : mapGet model.globallyRestrictedObjects objectName = some msg) :
    checkPropertyAccess model objectName names =
      [Diagnostic.restrictedObjectProperty objectName (names.head?.getD none)
        (fmtMessage msg)] := by
  simp [checkPropertyAccess, hsc, fun_, hgp, hgo]

theorem buildStep_preserves_scoped (m : Model) (e : Entry) (o p : String)
    (msg : Option String)
    (he : ¬(e.object = some o ∧ e.property = some p))
    (h : ∃ inner, mapGet m.restrictedProperties (some o) = some inner ∧
      mapGet inner (some p) = some msg) :
    ∃ inner, mapGet (buildStep m e).restrictedProperties (some o) = some inner ∧
      mapGet inner (some p) = some msg := by
  obtain ⟨inner, hi, hp'⟩ := h
  cases ho : e.object with
  | none => exact ⟨inner, by simp [buildStep, ho, hi], hp'⟩
  | some o' =>
      cases hq : e.property with
      | none => exact ⟨inner, by simp [buildStep, ho, hq, hi], hp'⟩
      | some p' =>
          by_cases hoo : o' = o
          · subst hoo
            have hpp : p' ≠ p := by
              intro hpp
              exact he ⟨ho, by rw [hq, hpp]⟩
            refine ⟨mapSet inner (some p') e.message, ?_, ?_⟩
            · simp only [buildStep, ho, hq, hi, Option.getD_some]
              exact mapGet_mapSet_self _ _ _
            · rw [mapGet_mapSet_ne _ _ (by simp [hpp, Ne.symm hpp])]
              exact hp'
          · refine ⟨inner, ?_, hp'⟩
            simp only [buildStep, ho, hq]
            rw [mapGet_mapSet_ne _ _ (by simp [Ne.symm hoo])]
            exact hi

theorem foldl_preserves_scoped (es : List Entry) (o p : String) (msg : Option String) :
    ∀ m : Model, (∀ e ∈ es, ¬(e.object = some o ∧ e.property = some p)) →
      (∃ inner, mapGet m.restrictedProperties (some o) = some inner ∧
        mapGet inner (some p) = some msg) →
      ∃ inner, mapGet (es.foldl buildStep m).restrictedProperties (some o) = some inner ∧
        mapGet inner (some p) = some msg := by
  induction es with
  | nil => exact fun m _ h => h
  | cons e rest ih =>
      intro m hes h
      exact ih (buildStep m e) (fun x hx => hes x (List.mem_cons_of_mem _ hx))
        (buildStep_preserves_scoped m e o p msg (hes e (List.mem_cons_self _ _)) h)

theorem buildStep_preserves_globalProp (m : Model) (e : Entry) (p : String)
    (msg : Option String)
    (he : ¬(e.object = none ∧ e.property = some p))
    (h : mapGet m.globallyRestrictedProperties (some p) = some msg) :
    mapGet (buildStep m e).globallyRestrictedProperties (some p) = some msg := by
  cases ho : e.object with
  | none =>
      have hne : e.property ≠ some p := by
        intro hp
        exact he ⟨ho, hp⟩
      simp only [buildStep, ho]
      rw [mapGet_mapSet_ne _ _ (fun hh => hne hh.symm)]
      exact h
  | some o' =>
      cases hq : e.property with
      | none => simp [buildStep, ho, hq, h]
      | some p' => simp [buildStep, ho, hq, h]

theorem foldl_preserves_globalProp (es : List Entry) (p : String) (msg : Option String) :
    ∀ m : Model, (∀ e ∈ es, ¬(e.object = none ∧ e.property = some p)) →
      mapGet m.globallyRestrictedProperties (some p) = some msg →
      mapGet ((es.foldl buildStep m)).globallyRestrictedProperties (some p) = some msg := by
  induction es with
  | nil => exact fun m _ h => h
  | cons e rest ih =>
      intro m hes h
      exact ih (buildStep m e) (fun x hx => hes x (List.mem_cons_of_mem _ hx))
        (buildStep_preserves_globalProp m e p msg (hes e (List.mem_cons_self _ _)) h)

/-- C1: the claim states that a member access with a computed, not
statically known property key never produces a diagnostic under any
configuration, including a global object restriction on the accessed
object name.  On the code this fails: under the configuration
[{object: foo}] the access foo[bar] produces one restrictedObjectProperty
diagnostic whose reported property name is the null marker, because the
call site wraps the null static property name in a one-element array,
which makes the null guard at the top of checkPropertyAccess
unreachable and lets the global-object tier fire on unmatched property
names.  This theorem evaluates the code at that failing input. -/
theorem c1_computed_access_reports_under_global_object_restriction :
    visitMemberExpression (buildModel [⟨some "foo", none, none⟩])
      ⟨ObjExpr.ident "foo", PropKey.dynamic⟩ =
      [Diagnostic.restrictedObjectProperty (some "foo") none ""] := by
  rfl

/-- C2 counterexample: the claim states that a member access whose object
is not a bare identifier produces no diagnostic under every
configuration, including a global property restriction on the static
property name.  On the code, under the configuration [{property: bar}],
an access of property bar on a non-identifier object does produce a
diagnostic, because the global-property tier matches property names
without consulting the object name. -/
theorem c2_counterexample :
    visitMemberExpression (buildModel [⟨none, some "bar", none⟩])
      ⟨ObjExpr.nonIdent, PropKey.ident "bar"⟩ ≠ [] := by
  decide

/-- C2 (amended): for a member access whose object is not a bare
identifier the scoped and global-object tiers never fire, so every
emitted diagnostic uses the restrictedProperty messageId; with no
matching global property restriction no diagnostic at all is emitted;
and a global property restriction whose property name equals the
statically known property name of the access does yield exactly that
restrictedProperty diagnostic. -/
theorem c2_amended_nonidentifier_object (options : List Entry) (node : MemberExpression)
    (hobj : objectNameOf node.object = none) :
    (∀ d ∈ visitMemberExpression (buildModel options) node,
      ∃ p m, d = Diagnostic.restrictedProperty p m) ∧
    (matchingProps (buildModel options).globallyRestrictedProperties
        [getStaticPropertyName node.property] = [] →
      visitMemberExpression (buildModel options) node = []) ∧
    (∀ s msg, getStaticPropertyName node.property = some s →
      mapGet (buildModel options).globallyRestrictedProperties (some s) = some msg →
      visitMemberExpression (buildModel options) node =
        [Diagnostic.restrictedProperty (some s) (fmtMessage msg)]) := by
  have inv := buildModel_mapGet_none options
  have hsc : scopedMatches (buildModel options) none
      [getStaticPropertyName node.property] = none := by
    simp [scopedMatches, inv.1]
  have hempty : matchingProps (buildModel options).globallyRestrictedProperties
      [getStaticPropertyName node.property] = [] →
      visitMemberExpression (buildModel options) node = [] := by
    intro hgp
    rw [visitMemberExpression, hobj]
    simp [checkPropertyAccess, hsc, fun_, hgp, inv.2]
  refine ⟨?_, hempty, ?_⟩
  · intro d hd
    by_cases hgp : matchingProps (buildModel options).globallyRestrictedProperties
        [getStaticPropertyName node.property] = []
    · rw [hempty hgp] at hd
      cases hd
    · rw [visitMemberExpression, hobj] at hd
      rw [checkPropertyAccess_globalProp (buildModel options) none _ hsc hgp] at hd
      simp only [List.mem_map] at hd
      obtain ⟨q, hq, rfl⟩ := hd
      exact ⟨some q.1, fmtMessage q.2, rfl⟩
  · intro s msg hs hmsg
    rw [visitMemberExpression, hobj]
    have hm : matchingProps (buildModel options).globallyRestrictedProperties
        [getStaticPropertyName node.property] = [(s, msg)] := by
      simp [matchingProps, hs, hmsg]
    rw [checkPropertyAccess_globalProp (buildModel options) none _ hsc (by simp [hm])]
    simp [hm]

/-- C2 witness: the amended statement at the configuration
[{property: bar}] and the access of property bar on a non-identifier
object, which yields exactly one restrictedProperty diagnostic. -/
theorem c2_witness :
    objectNameOf ObjExpr.nonIdent = none ∧
    visitMemberExpression (buildModel [⟨none, some "bar", none⟩])
        ⟨ObjExpr.nonIdent, PropKey.ident "bar"⟩ =
      [Diagnostic.restrictedProperty (some "bar") ""] :=
  ⟨rfl,
    (c2_amended_nonidentifier_object [⟨none, some "bar", none⟩]
      ⟨ObjExpr.nonIdent, PropKey.ident "bar"⟩ rfl).2.2 "bar" none rfl rfl⟩

/-- C3: when an access site is matched by a scoped object and property
restriction and a global property restriction on the same property name,
only the scoped tier fires: the emitted diagnostics are exactly the
restrictedObjectProperty reports of the scoped matches, so no
restrictedProperty and no global-object diagnostic is emitted. -/
theorem c3_scoped_tier_suppresses_global_property_tier
    (model : Model) (objectName : Option String) (names : List (Option String))
    (inner : JSMap (Option String)) (s : String) (m₁ m₂ : Option String)
    (hi : mapGet model.restrictedProperties objectName = some inner)
    (hmem : some s ∈ names)
    (hs : mapGet inner (some s) = some m₁)
    (hg : mapGet model.globallyRestrictedProperties (some s) = some m₂) :
    checkPropertyAccess model objectName names =
      (matchingProps inner names).map
        (fun q => Diagnostic.restrictedObjectProperty objectName (some q.1)
          (fmtMessage q.2)) := by
  have hmm : (s, m₁) ∈ matchingProps inner names := by
    rw [matchingProps, List.mem_filterMap]
    exact ⟨some s, hmem, by simp [hs]⟩
  have hne : matchingProps inner names ≠ [] := List.ne_nil_of_mem hmm
  simp only [checkPropertyAccess, scopedMatches, hi, fun_, if_neg hne]

/-- C3 witness: a model with a scoped restriction on foo.a and a global
property restriction on a; the access foo.a reports only through the
scoped tier. -/
theorem c3_witness :
    mapGet (Model.mk [(some "foo", [(some "a", none)])] [] [(some "a", some "g")]).restrictedProperties
        (some "foo") = some [(some "a", none)] ∧
    some "a" ∈ [some "a"] ∧
    mapGet [(some "a", (none : Option String))] (some "a") = some none ∧
    mapGet (Model.mk [(some "foo", [(some "a", none)])] [] [(some "a", some "g")]).globallyRestrictedProperties
        (some "a") = some (some "g") ∧
    checkPropertyAccess (Model.mk [(some "foo", [(some "a", none)])] [] [(some "a", some "g")])
        (some "foo") [some "a"] =
      [Diagnostic.restrictedObjectProperty (some "foo") (some "a") ""] :=
  ⟨rfl, by decide, rfl, rfl,
    c3_scoped_tier_suppresses_global_property_tier
      (Model.mk [(some "foo", [(some "a", none)])] [] [(some "a", some "g")])
      (some "foo") [some "a"] [(some "a", none)] "a" none (some "g")
      rfl (by decide) rfl rfl⟩

/-- C4: when the object name of an access site is globally restricted
and neither the scoped tier nor the global-property tier fires, exactly
one restrictedObjectProperty diagnostic is emitted, whatever and however
many property names the site exposes, and its reported property name is
the first element of the property-name sequence. -/
theorem c4_global_object_single_diagnostic (model : Model) (objectName : Option String)
    (x₀ : Option String) (rest : List (Option String)) (msg : Option String)
    (hgo : mapGet model.globallyRestrictedObjects objectName = some msg)
    (hsc : scopedMatches model objectName (x₀ :: rest) = none)
    (hgp : matchingProps model.globallyRestrictedProperties (x₀ :: rest) = []) :
    checkPropertyAccess model objectName (x₀ :: rest) =
      [Diagnostic.restrictedObjectProperty objectName x₀ (fmtMessage msg)] := by
  have h := checkPropertyAccess_globalObject model objectName (x₀ :: rest) msg hsc hgp hgo
  simpa using h

/-- C4 witness: a global object restriction on obj and a destructuring
access of the two unrestricted properties x and y reports once, naming
x. -/
theorem c4_witness :
    mapGet (Model.mk [] [(some "obj", some "m")] []).globallyRestrictedObjects
        (some "obj") = some (some "m") ∧
    scopedMatches (Model.mk [] [(some "obj", some "m")] []) (some "obj")
        [some "x", some "y"] = none ∧
    matchingProps (Model.mk [] [(some "obj", some "m")] []).globallyRestrictedProperties
        [some "x", some "y"] = [] ∧
    checkPropertyAccess (Model.mk [] [(some "obj", some "m")] []) (some "obj")
        [some "x", some "y"] =
      [Diagnostic.restrictedObjectProperty (some "obj") (some "x") " m"] :=
  ⟨rfl, rfl, rfl,
    c4_global_object_single_diagnostic (Model.mk [] [(some "obj", some "m")] [])
      (some "obj") (some "x") [some "y"] (some "m") rfl rfl rfl⟩

/-- C5: under a single scoped restriction on foo.a with any message, the
variable-declaration destructuring, the destructuring assignment and the
direct member access forms each produce exactly one diagnostic, and all
three report property name a. -/
theorem c5_destructuring_equivalence (msg : Option String) :
    visitVariableDeclarator (buildModel [⟨some "foo", some "a", msg⟩])
        ⟨BindingTarget.objectPattern [PatternProp.keyed (PropKey.ident "a")],
          some (ObjExpr.ident "foo")⟩ =
      [Diagnostic.restrictedObjectProperty (some "foo") (some "a") (fmtMessage msg)] ∧
    checkDestructuringAssignment (buildModel [⟨some "foo", some "a", msg⟩])
        ⟨BindingTarget.objectPattern [PatternProp.keyed (PropKey.ident "a")],
          ObjExpr.ident "foo"⟩ =
      [Diagnostic.restrictedObjectProperty (some "foo") (some "a") (fmtMessage msg)] ∧
    visitMemberExpression (buildModel [⟨some "foo", some "a", msg⟩])
        ⟨ObjExpr.ident "foo", PropKey.ident "a"⟩ =
      [Diagnostic.restrictedObjectProperty (some "foo") (some "a") (fmtMessage msg)] :=
  ⟨rfl, rfl, rfl⟩

/-- C6: when a destructuring access site exposes several property names
of which at least two are globally property-restricted and the scoped
tier does not fire, one restrictedProperty diagnostic is emitted per
matched property name, all of them, in the order the names occur in the
pattern. -/
theorem c6_all_global_property_matches_reported (model : Model) (objectName : String)
    (properties : List PatternProp)
    (hsc : scopedMatches model (some objectName) (getAllProperties properties) = none)
    (h2 : 2 ≤ (matchingProps model.globallyRestrictedProperties
      (getAllProperties properties)).length) :
    checkDestructuringAssignment model
        ⟨BindingTarget.objectPattern properties, ObjExpr.ident objectName⟩ =
      (matchingProps model.globallyRestrictedProperties
          (getAllProperties properties)).map
        (fun q => Diagnostic.restrictedProperty (some q.1) (fmtMessage q.2)) := by
  have hne : matchingProps model.globallyRestrictedProperties
      (getAllProperties properties) ≠ [] := by
    intro h
    rw [h] at h2
    simp at h2
  exact checkPropertyAccess_globalProp model (some objectName)
    (getAllProperties properties) hsc hne

/-- C6 witness: global property restrictions on a and b and the
destructuring assignment of a and b from an unrestricted object report
both properties, in pattern order. -/
theorem c6_witness :
    scopedMatches (Model.mk [] [] [(some "a", none), (some "b", none)]) (some "obj")
        (getAllProperties [PatternProp.keyed (PropKey.ident "a"),
          PatternProp.keyed (PropKey.ident "b")]) = none ∧
    2 ≤ (matchingProps (Model.mk [] [] [(some "a", none), (some "b", none)]).globallyRestrictedProperties
        (getAllProperties [PatternProp.keyed (PropKey.ident "a"),
          PatternProp.keyed (PropKey.ident "b")])).length ∧
    checkDestructuringAssignment (Model.mk [] [] [(some "a", none), (some "b", none)])
        ⟨BindingTarget.objectPattern [PatternProp.keyed (PropKey.ident "a"),
          PatternProp.keyed (PropKey.ident "b")], ObjExpr.ident "obj"⟩ =
      [Diagnostic.restrictedProperty (some "a") "",
        Diagnostic.restrictedProperty (some "b") ""] :=
  ⟨rfl, by decide,
    c6_all_global_property_matches_reported
      (Model.mk [] [] [(some "a", none), (some "b", none)]) "obj"
      [PatternProp.keyed (PropKey.ident "a"), PatternProp.keyed (PropKey.ident "b")]
      rfl (by decide)⟩

/-- C7: Build dispatches every entry into exactly one lookup structure.
An entry with the object field absent binds its property name with its
message in the global-property map and leaves the other two maps
unchanged; an entry with the property field absent binds its object name
with its message in the global-object map and leaves the other two maps
unchanged; an entry with both present binds its property name with its
message inside the nested map of its object name and leaves the other
two maps unchanged.  Build is a total function, so it raises no error on
any input list. -/
theorem c7_build_partitions_entries (m : Model) (e : Entry) :
    (e.object = none →
      (buildStep m e).restrictedProperties = m.restrictedProperties ∧
      (buildStep m e).globallyRestrictedObjects = m.globallyRestrictedObjects ∧
      mapGet (buildStep m e).globallyRestrictedProperties e.property = some e.message) ∧
    (∀ o, e.object = some o → e.property = none →
      (buildStep m e).restrictedProperties = m.restrictedProperties ∧
      (buildStep m e).globallyRestrictedProperties = m.globallyRestrictedProperties ∧
      mapGet (buildStep m e).globallyRestrictedObjects (some o) = some e.message) ∧
    (∀ o p, e.object = some o → e.property = some p →
      (buildStep m e).globallyRestrictedObjects = m.globallyRestrictedObjects ∧
      (buildStep m e).globallyRestrictedProperties = m.globallyRestrictedProperties ∧
      ∃ inner, mapGet (buildStep m e).restrictedProperties (some o) = some inner ∧
        mapGet inner (some p) = some e.message) := by
  refine ⟨?_, ?_, ?_⟩
  · intro ho
    refine ⟨by simp [buildStep, ho], by simp [buildStep, ho], ?_⟩
    simp only [buildStep, ho]
    exact mapGet_mapSet_self _ _ _
  · intro o ho hp
    refine ⟨by simp [buildStep, ho, hp], by simp [buildStep, ho, hp], ?_⟩
    simp only [buildStep, ho, hp]
    exact mapGet_mapSet_self _ _ _
  · intro o p ho hp
    refine ⟨by simp [buildStep, ho, hp], by simp [buildStep, ho, hp],
      mapSet ((mapGet m.restrictedProperties (some o)).getD []) (some p) e.message,
      ?_, ?_⟩
    · simp only [buildStep, ho, hp]
      exact mapGet_mapSet_self _ _ _
    · exact mapGet_mapSet_self _ _ _

/-- C7 witness: the three partition cases at three concrete entries. -/
theorem c7_witness :
    mapGet (buildStep emptyModel ⟨none, some "q", some "m1"⟩).globallyRestrictedProperties
        (some "q") = some (some "m1") ∧
    mapGet (buildStep emptyModel ⟨some "o", none, some "m2"⟩).globallyRestrictedObjects
        (some "o") = some (some "m2") ∧
    (buildStep emptyModel ⟨some "o", some "q", some "m3"⟩).globallyRestrictedObjects =
      emptyModel.globallyRestrictedObjects :=
  ⟨((c7_build_partitions_entries emptyModel ⟨none, some "q", some "m1"⟩).1 rfl).2.2,
    ((c7_build_partitions_entries emptyModel ⟨some "o", none, some "m2"⟩).2.1
      "o" rfl rfl).2.2,
    ((c7_build_partitions_entries emptyModel ⟨some "o", some "q", some "m3"⟩).2.2
      "o" "q" rfl rfl).1⟩

/-- C8: the configuration [{object: foo, property: bar, message: Use baz
instead.}] against the access foo.bar yields exactly one diagnostic with
messageId restrictedObjectProperty, objectName foo, propertyName bar and
the configured message with one leading space prepended. -/
theorem c8_example_foo_bar :
    visitMemberExpression (buildModel [⟨some "foo", some "bar", some "Use baz instead."⟩])
      ⟨ObjExpr.ident "foo", PropKey.ident "bar"⟩ =
      [Diagnostic.restrictedObjectProperty (some "foo") (some "bar")
        " Use baz instead."] := by
  rfl

/-- C9: with an empty entry list create returns the empty handler set,
every visitor field absent, and therefore running any program through
the returned handlers emits no diagnostic. -/
theorem c9_empty_options_no_handlers :
    (create []).onMemberExpression = none ∧
    (create []).onVariableDeclarator = none ∧
    (create []).onAssignmentExpression = none ∧
    (create []).onAssignmentPattern = none ∧
    (create []).onArrowFunctionExpression = none ∧
    ∀ program : List Node, runProgram (create []) program = [] := by
  have h : ∀ n : Node, runNode (create []) n = [] := by
    intro n
    cases n <;> rfl
  refine ⟨rfl, rfl, rfl, rfl, rfl, ?_⟩
  intro program
  induction program with
  | nil => rfl
  | cons n rest ih =>
      simp only [runProgram, List.map_cons, List.flatten_cons] at ih ⊢
      rw [h n, ih]
      rfl

/-- C10: when two configured entries map to the same lookup key, the
later one overwrites the earlier one, and only the later message
reaches the diagnostic.  Shown for both key kinds the claim names: a
repeated object and property pair reported through the scoped tier, and
a repeated lone property name reported through the global-property
tier, with arbitrary surrounding entries, provided no entry after the
later one rebinds the same key. -/
theorem c10_later_entry_overwrites (es₁ es₂ es₃ : List Entry) (o p : String)
    (m₁ m₂ : Option String)
    (h₃s : ∀ e ∈ es₃, ¬(e.object = some o ∧ e.property = some p))
    (h₃g : ∀ e ∈ es₃, ¬(e.object = none ∧ e.property = some p)) :
    checkPropertyAccess
        (buildModel (es₁ ++ ⟨some o, some p, m₁⟩ :: es₂ ++ ⟨some o, some p, m₂⟩ :: es₃))
        (some o) [some p] =
      [Diagnostic.restrictedObjectProperty (some o) (some p) (fmtMessage m₂)] ∧
    checkPropertyAccess
        (buildModel (es₁ ++ ⟨none, some p, m₁⟩ :: es₂ ++ ⟨none, some p, m₂⟩ :: es₃))
        none [some p] =
      [Diagnostic.restrictedProperty (some p) (fmtMessage m₂)] := by
  constructor
  · rw [buildModel, List.foldl_append, List.foldl_cons]
    set pre := (es₁ ++ (⟨some o, some p, m₁⟩ : Entry) :: es₂).foldl buildStep emptyModel
    have hbase : ∃ inner,
        mapGet (buildStep pre ⟨some o, some p, m₂⟩).restrictedProperties (some o) =
          some inner ∧ mapGet inner (some p) = some m₂ := by
      refine ⟨mapSet ((mapGet pre.restrictedProperties (some o)).getD []) (some p) m₂, ?_, ?_⟩
      · exact mapGet_mapSet_self _ _ _
      · exact mapGet_mapSet_self _ _ _
    obtain ⟨inner, hi, hp'⟩ :=
      foldl_preserves_scoped es₃ o p m₂ (buildStep pre ⟨some o, some p, m₂⟩) h₃s hbase
    exact checkPropertyAccess_scoped_of_mapGet _ o p m₂ inner hi hp'
  · obtain ⟨M, hM⟩ : ∃ M, buildModel
        (es₁ ++ (⟨none, some p, m₁⟩ : Entry) :: es₂ ++ (⟨none, some p, m₂⟩ : Entry) :: es₃) = M :=
      ⟨_, rfl⟩
    have hinv := buildModel_mapGet_none
      (es₁ ++ (⟨none, some p, m₁⟩ : Entry) :: es₂ ++ (⟨none, some p, m₂⟩ : Entry) :: es₃)
    have hgp : mapGet
        (buildModel (es₁ ++ (⟨none, some p, m₁⟩ : Entry) :: es₂ ++ (⟨none, some p, m₂⟩ : Entry) :: es₃)).globallyRestrictedProperties
        (some p) = some m₂ := by
      rw [buildModel, List.foldl_append, List.foldl_cons]
      refine foldl_preserves_globalProp es₃ p m₂ _ h₃g ?_
      exact mapGet_mapSet_self _ _ _
    rw [hM] at hinv hgp ⊢
    have hsc : scopedMatches M none [some p] = none := by
      simp [scopedMatches, hinv.1]
    have hm : matchingProps M.globallyRestrictedProperties [some p] = [(p, m₂)] := by
      simp [matchingProps, hgp]
    rw [checkPropertyAccess_globalProp M none [some p] hsc (by simp [hm])]
    simp [hm]

/-- C10 witness: two entries restricting foo.bar with messages old and
new, and two entries restricting the lone property bar with messages old
and new: the diagnostics carry the message new. -/
theorem c10_witness :
    checkPropertyAccess
        (buildModel [⟨some "foo", some "bar", some "old"⟩, ⟨some "foo", some "bar", some "new"⟩])
        (some "foo") [some "bar"] =
      [Diagnostic.restrictedObjectProperty (some "foo") (some "bar") " new"] ∧
    checkPropertyAccess
        (buildModel [⟨none, some "bar", some "old"⟩, ⟨none, some "bar", some "new"⟩])
        none [some "bar"] =
      [Diagnostic.restrictedProperty (some "bar") " new"] :=
  c10_later_entry_overwrites [] [] [] "foo" "bar" (some "old") (some "new")
    (fun e he => absurd he (List.not_mem_nil e))
    (fun e he => absurd he (List.not_mem_nil e))

end NoRestrictedProperties
